import Mathlib

/-!
# Tag helper client (`tags/tagclient.cpp`)

A shallow embedding of the helper-process supervisor of the tag client: the three
file-level pointers `proc`, `server` and `sock`, the functions `isRunning`,
`stopHelper`, `startHelper` and `readReply`, and the ten public operations of
`TagClient` that are built from them.

Modelling conventions.

* An object created by `new` (or handed out by `nextPendingConnection`) is identified
  by a natural number; `State.allocated` counts the objects created so far, so every
  new object gets an identity no earlier object has.
* Everything the code asks of Qt or of the operating system is answered by an explicit
  environment (`Observed`, `Launch`, `Reply`), and every call the code makes on an
  object is recorded, in order, in a list of `Call`s.
* The `forever` loop that binds the endpoint name runs on fuel: it has no bound in the
  source and ends only when `listen` succeeds.
* The non-Windows branch of the `#ifdef Q_OS_WIN` blocks is the one embedded.
* The `DBUG` lines print only and are left out; the mutex serialises callers and has
  no effect on a single call.
-/

namespace TagClient

/-- The values of `QProcess::ProcessState`. -/
inductive ProcessState
  | NotRunning
  | Starting
  | Running
deriving DecidableEq, Repr

/-- The values of `QLocalSocket::LocalSocketState`. -/
inductive LocalSocketState
  | UnconnectedState
  | ConnectingState
  | ConnectedState
  | ClosingState
deriving DecidableEq, Repr

/-- The enum `ReadStatus` of the source. -/
inductive ReadStatus
  | Read_Ok
  | Read_Timeout
  | Read_Closed
  | Read_Error
deriving DecidableEq, Repr

/-- What `proc->state()` and `sock->state()` answer at one instant, per object. -/
structure Observed where
  procState : Nat → ProcessState
  sockState : Nat → LocalSocketState

/-- The file-level pointers `proc`, `server`, `sock` (`none` is the null pointer) and
the number of objects created so far. -/
structure State where
  proc : Option Nat
  server : Option Nat
  sock : Option Nat
  allocated : Nat
deriving DecidableEq, Repr

/-- Modelled from the spec: the metadata record `Song`, whose declaration is outside
this file; it is carried as the bytes its stream operator writes. -/
structure Song where
  bytes : List Nat
deriving DecidableEq, Repr

/-- Modelled from the spec: the replay-gain record `Tags::ReplayGain`, whose
declaration is outside this file; it is carried as the bytes its stream operator
writes. -/
structure ReplayGain where
  bytes : List Nat
deriving DecidableEq, Repr

/-- One value streamed into a request with `outStream << ...`. -/
inductive Arg
  | string (s : String)
  | song (s : Song)
  | int (n : Int)
  | bool (b : Bool)
  | byteArray (b : List Nat)
  | replayGain (g : ReplayGain)
deriving DecidableEq, Repr

/-- A request: `QString(__FUNCTION__)` followed by the arguments in stream order. -/
structure Message where
  function : String
  args : List Arg
deriving DecidableEq, Repr

/-- The calls the code makes on its objects. A call made through the pointer `sock`
without a preceding null test carries the pointer itself, so a call through a null
`sock` is visible as `none`. -/
inductive Call
  | sockFlush (sock : Nat)
  | sockClose (sock : Nat)
  | sockDeleteLater (sock : Nat)
  | serverClose (server : Nat)
  | serverDeleteLater (server : Nat)
  | procTerminate (proc : Nat)
  | procKill (proc : Nat)
  | procDeleteLater (proc : Nat)
  | newServer (server : Nat)
  | removeServer (name : String)
  | listen (server : Nat) (name : String) (ok : Bool)
  | newProcess (proc : Nat)
  | procStart (proc : Nat) (program : String) (arguments : List String)
  | waitForStarted (proc : Nat) (msecs : Nat) (ok : Bool)
  | waitForNewConnection (server : Nat) (msecs : Nat) (ok : Bool)
  | nextPendingConnection (server : Nat) (conn : Option Nat)
  | sockWrite (sock : Option Nat) (message : Message)
  | waitForReadyRead (sock : Option Nat) (msecs : Nat) (ok : Bool)
  | readAll (sock : Option Nat) (data : List Nat)
deriving DecidableEq, Repr

/-- The constant `constMaxWait`. -/
def constMaxWait : Nat := 5000

/-- The function `isRunning`:
`proc && QProcess::Running==proc->state() && sock && QLocalSocket::ConnectedState==sock->state()`. -/
def isRunning (s : State) (o : Observed) : Bool :=
  match s.proc with
  | none => false
  | some p =>
    if o.procState p = ProcessState.Running then
      match s.sock with
      | none => false
      | some k => decide (o.sockState k = LocalSocketState.ConnectedState)
    else false

/-- The `if (sock) { ... }` block of `stopHelper`. -/
def stopSock (s : State) : State × List Call :=
  match s.sock with
  | some k =>
    ({ s with sock := none }, [Call.sockFlush k, Call.sockClose k, Call.sockDeleteLater k])
  | none => (s, [])

/-- The `if (server) { ... }` block of `stopHelper`. -/
def stopServer (s : State) : State × List Call :=
  match s.server with
  | some v => ({ s with server := none }, [Call.serverClose v, Call.serverDeleteLater v])
  | none => (s, [])

/-- The `if (proc) { ... }` block of `stopHelper`. -/
def stopProc (s : State) : State × List Call :=
  match s.proc with
  | some p =>
    ({ s with proc := none }, [Call.procTerminate p, Call.procKill p, Call.procDeleteLater p])
  | none => (s, [])

/-- The function `stopHelper`: the three blocks in source order; the result is the
state left and the calls made. -/
def stopHelper (s : State) : State × List Call :=
  let a := stopSock s
  let b := stopServer a.1
  let c := stopProc b.1
  (c.1, a.2 ++ b.2 ++ c.2)

/-- The function `TagClient::stop`: `stopHelper` under the lock. -/
def stop (s : State) : State × List Call :=
  stopHelper s

/-- What one `startHelper` call is answered by the outside: the process id, the
install location (the macro `INSTALL_PREFIX` of `config.h`), the successive values of
`Utils::random()`, the outcome of each `listen`, the full name Qt reports for a bound
name, and per launch attempt the outcomes of `waitForStarted`, `waitForNewConnection`
and whether `nextPendingConnection` is non-null. -/
structure Launch where
  currentPid : Nat
  installDir : String
  random : Nat → Nat
  listen : Nat → Bool
  fullServerName : String → String
  waitForStarted : Nat → Bool
  waitForNewConnection : Nat → Bool
  nextPendingConnection : Nat → Bool

/-- The endpoint name of `startHelper`:
`"cantata-tags-"+QString::number(currentPid)+QLatin1Char('-')+QString::number(Utils::random())`. -/
def endpointName (currentPid r : Nat) : String :=
  "cantata-tags-" ++ toString currentPid ++ "-" ++ toString r

/-- The program started by `proc->start`: `INSTALL_PREFIX"/lib/cantata/cantata-tags"`. -/
def helperProgram (installDir : String) : String :=
  installDir ++ "/lib/cantata/cantata-tags"

/-- The `forever` loop of `startHelper`, from its `k`-th pass on: generate a name,
`removeServer` it, `listen` on it, leave the loop when `listen` succeeds. The result is
the bound name (`none` when the fuel ran out with the loop still going) and the calls
made. -/
def bindLoop (env : Launch) (srv : Nat) : Nat → Nat → Option String × List Call
  | 0, _ => (none, [])
  | fuel + 1, k =>
    let name := endpointName env.currentPid (env.random k)
    if env.listen k then
      (some name, [Call.removeServer name, Call.listen srv name true])
    else
      let rest := bindLoop env srv fuel (k + 1)
      (rest.1, Call.removeServer name :: Call.listen srv name false :: rest.2)

/-- The outcome of `startHelper`: the value returned (`none` when the bind loop had
not ended within the fuel), the state left and the calls made. -/
structure Started where
  ret : Option Bool
  state : State
  calls : List Call
deriving DecidableEq, Repr

/-- The lines
`if (server->waitForNewConnection(constMaxWait)) { sock=server->nextPendingConnection(); }`
of launch attempt `i`. -/
def acceptConnection (env : Launch) (srv i : Nat) (s : State) : State × List Call :=
  if env.waitForNewConnection i then
    if env.nextPendingConnection i then
      ({ s with sock := some s.allocated, allocated := s.allocated + 1 },
        [Call.waitForNewConnection srv constMaxWait true,
         Call.nextPendingConnection srv (some s.allocated)])
    else
      ({ s with sock := none },
        [Call.waitForNewConnection srv constMaxWait true, Call.nextPendingConnection srv none])
  else
    (s, [Call.waitForNewConnection srv constMaxWait false])

/-- The loop `for (int i=0; i<5; ++i)` of `startHelper` with `n` passes left, at pass
`i`, followed by the lines after the loop (`stopHelper(); return false;`). -/
def launchLoop (env : Launch) (srv : Nat) (name : String) : Nat → Nat → State → Started
  | 0, _, s =>
    let t := stopHelper s
    ⟨some false, t.1, t.2⟩
  | n + 1, i, s =>
    let p := s.allocated
    let s1 : State := { s with proc := some p, allocated := s.allocated + 1 }
    let start := [Call.newProcess p,
      Call.procStart p (helperProgram env.installDir)
        [env.fullServerName name, toString env.currentPid]]
    if env.waitForStarted i then
      let a := acceptConnection env srv i s1
      let pre := start ++ [Call.waitForStarted p constMaxWait true] ++ a.2
      if a.1.sock.isSome then
        ⟨some true, a.1, pre⟩
      else
        let r := launchLoop env srv name n (i + 1) a.1
        ⟨r.ret, r.state, pre ++ r.calls⟩
    else
      let r := launchLoop env srv name n (i + 1) s1
      ⟨r.ret, r.state, start ++ [Call.waitForStarted p constMaxWait false] ++ r.calls⟩

/-- The function `startHelper`. -/
def startHelper (env : Launch) (fuel : Nat) (s : State) (o : Observed) : Started :=
  if isRunning s o then
    ⟨some true, s, []⟩
  else
    let t := stopHelper s
    let srv := t.1.allocated
    let s1 : State := { t.1 with server := some srv, allocated := t.1.allocated + 1 }
    let b := bindLoop env srv fuel 0
    match b.1 with
    | none => ⟨none, s1, t.2 ++ [Call.newServer srv] ++ b.2⟩
    | some name =>
      let r := launchLoop env srv name 5 0 s1
      ⟨r.ret, r.state, t.2 ++ [Call.newServer srv] ++ b.2 ++ r.calls⟩

/-- What one `readReply` call is answered by the outside: the outcome of
`sock->waitForReadyRead`, the bytes `sock->readAll` hands over, and what the objects
report once the wait is over. -/
structure Reply where
  waitForReadyRead : Bool
  readAll : List Nat
  afterWait : Observed

/-- The outcome of `readReply`: the status returned, the contents of `data`, the
state left and the calls made. -/
structure ReadResult where
  status : ReadStatus
  data : List Nat
  state : State
  calls : List Call
deriving DecidableEq, Repr

/-- The function `readReply`; `data` is the caller's byte array, passed by reference. -/
def readReply (s : State) (o : Observed) (w : Reply) (data : List Nat) : ReadResult :=
  if !isRunning s o then
    let t := stopHelper s
    ⟨ReadStatus.Read_Closed, data, t.1, t.2⟩
  else if w.waitForReadyRead then
    let data := w.readAll
    ⟨if data.isEmpty then ReadStatus.Read_Error else ReadStatus.Read_Ok, data, s,
      [Call.waitForReadyRead s.sock constMaxWait true, Call.readAll s.sock data]⟩
  else
    let t := stopHelper s
    ⟨if !isRunning t.1 w.afterWait then ReadStatus.Read_Closed else ReadStatus.Read_Timeout,
      data, t.1, Call.waitForReadyRead s.sock constMaxWait false :: t.2⟩

/-- The value the local `resp` of a public operation holds when the operation returns:
as default-constructed (`Song resp;`, `QImage resp;`, `QString resp;`,
`Tags::ReplayGain resp;`), one of the constants of `Tags` (declared in `tags.h`), or
whatever `inStream >> resp` reads from the reply bytes. -/
inductive Resp
  | defaultConstructed
  | Update_Failed
  | Update_Timedout
  | Update_BadFile
  | decoded (data : List Nat)
deriving DecidableEq, Repr

/-- What one public operation is answered by the outside: the environment of its
`startHelper` call and the fuel of the bind loop, what the objects report when
`startHelper` and `readReply` test `isRunning`, and the environment of `readReply`. -/
structure World where
  launch : Launch
  fuel : Nat
  onEntry : Observed
  beforeWait : Observed
  reply : Reply

/-- The outcome of a public operation: the value returned (`none` when the bind loop
of `startHelper` had not ended within the fuel), the state left and the calls made. -/
structure Returned where
  resp : Option Resp
  state : State
  calls : List Call
deriving DecidableEq, Repr

/-- The body shared by `read`, `readImage`, `readLyrics`, `readComment`,
`readReplaygain` and `oggMimeType`: `resp` is default-constructed and replaced only by
a decoded `Read_Ok` reply. -/
def readOperation (w : World) (s : State) (message : Message) : Returned :=
  let resp := Resp.defaultConstructed
  let h := startHelper w.launch w.fuel s w.onEntry
  match h.ret with
  | none => ⟨none, h.state, h.calls⟩
  | some false => ⟨some resp, h.state, h.calls⟩
  | some true =>
    let r := readReply h.state w.beforeWait w.reply []
    let resp := if r.status = ReadStatus.Read_Ok then Resp.decoded r.data else resp
    ⟨some resp, r.state, h.calls ++ [Call.sockWrite h.state.sock message] ++ r.calls⟩

/-- The body shared by `updateArtistAndTitle`, `update`, `updateReplaygain` and
`embedImage`: `resp` starts as `Tags::Update_Failed`; after the request is written it
becomes the decoded reply on `Read_Ok`, and otherwise
`Read_Timeout==readStatus ? Tags::Update_Timedout : Tags::Update_BadFile`. -/
def updateOperation (w : World) (s : State) (message : Message) : Returned :=
  let resp := Resp.Update_Failed
  let h := startHelper w.launch w.fuel s w.onEntry
  match h.ret with
  | none => ⟨none, h.state, h.calls⟩
  | some false => ⟨some resp, h.state, h.calls⟩
  | some true =>
    let r := readReply h.state w.beforeWait w.reply []
    let resp :=
      if r.status = ReadStatus.Read_Ok then Resp.decoded r.data
      else if r.status = ReadStatus.Read_Timeout then Resp.Update_Timedout
      else Resp.Update_BadFile
    ⟨some resp, r.state, h.calls ++ [Call.sockWrite h.state.sock message] ++ r.calls⟩

/-- The operation `TagClient::read`. -/
def read (w : World) (s : State) (fileName : String) : Returned :=
  readOperation w s ⟨"read", [Arg.string fileName]⟩

/-- The operation `TagClient::readImage`. -/
def readImage (w : World) (s : State) (fileName : String) : Returned :=
  readOperation w s ⟨"readImage", [Arg.string fileName]⟩

/-- The operation `TagClient::readLyrics`. -/
def readLyrics (w : World) (s : State) (fileName : String) : Returned :=
  readOperation w s ⟨"readLyrics", [Arg.string fileName]⟩

/-- The operation `TagClient::readComment`. -/
def readComment (w : World) (s : State) (fileName : String) : Returned :=
  readOperation w s ⟨"readComment", [Arg.string fileName]⟩

/-- The operation `TagClient::updateArtistAndTitle`. -/
def updateArtistAndTitle (w : World) (s : State) (fileName : String) (song : Song) : Returned :=
  updateOperation w s ⟨"updateArtistAndTitle", [Arg.string fileName, Arg.song song]⟩

/-- The operation `TagClient::update`; `src` and `dst` are the parameters `from` and `to`
of the source. -/
def update (w : World) (s : State) (fileName : String) (src dst : Song) (id3Ver : Int)
    (saveComment : Bool) : Returned :=
  updateOperation w s
    ⟨"update", [Arg.string fileName, Arg.song src, Arg.song dst, Arg.int id3Ver,
      Arg.bool saveComment]⟩

/-- The operation `TagClient::readReplaygain`. -/
def readReplaygain (w : World) (s : State) (fileName : String) : Returned :=
  readOperation w s ⟨"readReplaygain", [Arg.string fileName]⟩

/-- The operation `TagClient::updateReplaygain`. -/
def updateReplaygain (w : World) (s : State) (fileName : String) (rg : ReplayGain) : Returned :=
  updateOperation w s ⟨"updateReplaygain", [Arg.string fileName, Arg.replayGain rg]⟩

/-- The operation `TagClient::embedImage`. -/
def embedImage (w : World) (s : State) (fileName : String) (cover : List Nat) : Returned :=
  updateOperation w s ⟨"embedImage", [Arg.string fileName, Arg.byteArray cover]⟩

/-- The operation `TagClient::oggMimeType`. -/
def oggMimeType (w : World) (s : State) (fileName : String) : Returned :=
  readOperation w s ⟨"oggMimeType", [Arg.string fileName]⟩

/-- The names of the ten public operations with their arguments. -/
inductive Operation
  | read (fileName : String)
  | readImage (fileName : String)
  | readLyrics (fileName : String)
  | readComment (fileName : String)
  | updateArtistAndTitle (fileName : String) (song : Song)
  | update (fileName : String) (src dst : Song) (id3Ver : Int) (saveComment : Bool)
  | readReplaygain (fileName : String)
  | updateReplaygain (fileName : String) (rg : ReplayGain)
  | embedImage (fileName : String) (cover : List Nat)
  | oggMimeType (fileName : String)
deriving DecidableEq, Repr

/-- Running a public operation, chosen by name. -/
def Operation.run (w : World) (s : State) : Operation → Returned
  | Operation.read f => TagClient.read w s f
  | Operation.readImage f => TagClient.readImage w s f
  | Operation.readLyrics f => TagClient.readLyrics w s f
  | Operation.readComment f => TagClient.readComment w s f
  | Operation.updateArtistAndTitle f song => TagClient.updateArtistAndTitle w s f song
  | Operation.update f a b v c => TagClient.update w s f a b v c
  | Operation.readReplaygain f => TagClient.readReplaygain w s f
  | Operation.updateReplaygain f rg => TagClient.updateReplaygain w s f rg
  | Operation.embedImage f cover => TagClient.embedImage w s f cover
  | Operation.oggMimeType f => TagClient.oggMimeType w s f

/-- The value `resp` is initialised with in each public operation. -/
def Operation.initial : Operation → Resp
  | Operation.updateArtistAndTitle _ _ => Resp.Update_Failed
  | Operation.update _ _ _ _ _ => Resp.Update_Failed
  | Operation.updateReplaygain _ _ => Resp.Update_Failed
  | Operation.embedImage _ _ => Resp.Update_Failed
  | _ => Resp.defaultConstructed

/-! ## Measures on lists of calls -/

/-- The state with `proc`, `server` and `sock` all absent. -/
def State.absent (s : State) : Prop :=
  s.proc = none ∧ s.server = none ∧ s.sock = none

instance (s : State) : Decidable s.absent :=
  inferInstanceAs (Decidable (_ ∧ _ ∧ _))

/-- Whether a call goes through a null `sock`. -/
def Call.throughNullSock : Call → Bool
  | Call.sockWrite none _ => true
  | Call.waitForReadyRead none _ _ => true
  | Call.readAll none _ => true
  | _ => false

/-- Whether a call writes a request to a connection. -/
def Call.isWrite : Call → Bool
  | Call.sockWrite _ _ => true
  | _ => false

/-- Whether a call launches the helper executable (`proc->start`). -/
def Call.isLaunch : Call → Bool
  | Call.procStart _ _ _ => true
  | _ => false

/-- The number of times the helper executable is launched in a list of calls. -/
def launches (calls : List Call) : Nat :=
  (calls.filter Call.isLaunch).length

/-- Whether launch attempt `i` has `waitForStarted` succeed, `waitForNewConnection`
succeed and `nextPendingConnection` hand over a non-null connection. -/
def Launch.attemptOk (env : Launch) (i : Nat) : Bool :=
  env.waitForStarted i && env.waitForNewConnection i && env.nextPendingConnection i

/-- Whether the bind loop ends within the fuel: some `listen` among the first `fuel`
succeeds. -/
def Launch.bindsWithin (env : Launch) (fuel : Nat) : Prop :=
  ∃ k, k < fuel ∧ env.listen k = true

/-- Whether a call is a `listen` that succeeded, that is, binds an endpoint name. -/
def Call.isBound : Call → Bool
  | Call.listen _ _ true => true
  | _ => false

/-- Whether a call creates a listen endpoint (`new QLocalServer`). -/
def Call.isNewServer : Call → Bool
  | Call.newServer _ => true
  | _ => false

/-- Whether a call takes part in setting up a listen endpoint: creating the server,
removing a stale name, or a `listen` on a generated name, whether it succeeds or not. -/
def Call.namesEndpoint : Call → Bool
  | Call.newServer _ => true
  | Call.removeServer _ => true
  | Call.listen _ _ _ => true
  | _ => false

/-- Whether a call goes through the pointer `sock` without a null test before it. -/
def Call.usesSock : Call → Bool
  | Call.sockWrite _ _ => true
  | Call.waitForReadyRead _ _ _ => true
  | Call.readAll _ _ => true
  | _ => false

/-- The launch of process `p` as `startHelper` writes it: the helper program with the
full name of the endpoint bound to `name` and the caller's process id as arguments. -/
def launchCall (env : Launch) (name : String) (p : Nat) : Call :=
  Call.procStart p (helperProgram env.installDir)
    [env.fullServerName name, toString env.currentPid]

/-- A call as the launch loop makes them: it binds no name, creates no endpoint, does
not go through `sock`, when it launches the helper it passes the endpoint bound to
`name`, and it takes no part in setting up an endpoint (no `removeServer`, no `listen`
of any outcome, no new server). -/
def Call.ofLaunchLoop (env : Launch) (name : String) (x : Call) : Prop :=
  x.isBound = false ∧ x.isNewServer = false ∧ x.usesSock = false ∧
    (x.isLaunch = true → ∃ p, x = launchCall env name p) ∧ x.namesEndpoint = false

/-! ## Concrete environments and trace measures -/

/-- Every process reports `Running` and every socket `ConnectedState`. -/
def allLive : Observed :=
  ⟨fun _ => ProcessState.Running, fun _ => LocalSocketState.ConnectedState⟩

/-- A state as `startHelper` leaves it on success from scratch: server `0`, process
`1`, connection `2`. -/
def liveState : State :=
  ⟨some 1, some 0, some 2, 3⟩

/-- The state at program start: all three pointers null, nothing created yet. -/
def initialState : State :=
  ⟨none, none, none, 0⟩

/-- A reply environment in which data is signalled ready and `readAll` hands over no
byte. -/
def emptyRead : Reply :=
  ⟨true, [], allLive⟩

/-- A reply environment in which the wait times out while the process still reports
`Running` and the socket `ConnectedState`. -/
def stalled : Reply :=
  ⟨false, [], allLive⟩

/-- A helper that starts and connects back at the first attempt; every `listen`
succeeds and the random values are all different. -/
def promptHelper : Launch :=
  ⟨4242, "/usr", fun k => 100 + k, fun _ => true, fun n => "/tmp/" ++ n,
    fun _ => true, fun _ => true, fun _ => true⟩

/-- A helper that starts at every attempt and never connects back. -/
def silentHelper : Launch :=
  ⟨4242, "/usr", fun k => 100 + k, fun _ => true, fun n => "/tmp/" ++ n,
    fun _ => true, fun _ => false, fun _ => false⟩

/-- A helper whose first launch starts without connecting back in time and whose
second launch starts and connects. -/
def slowHelper : Launch :=
  ⟨4242, "/usr", fun k => 100 + k, fun _ => true, fun n => "/tmp/" ++ n,
    fun _ => true, fun i => decide (1 ≤ i), fun i => decide (1 ≤ i)⟩

/-- The world of a call whose helper starts and connects at once and then sends no
reply within the wait, while process and socket stay live. -/
def stalledWorld : World :=
  ⟨promptHelper, 1, allLive, allLive, stalled⟩

/-- The world of a call whose helper never connects back. -/
def silentWorld : World :=
  ⟨silentHelper, 1, allLive, allLive, stalled⟩

/-- The processes launched and not terminated or killed since, after one more call. -/
def liveStep (live : List Nat) : Call → List Nat
  | Call.procStart p _ _ => live ++ [p]
  | Call.procTerminate p => live.filter (fun q => q != p)
  | Call.procKill p => live.filter (fun q => q != p)
  | _ => live

/-- The processes launched and not terminated or killed since, after a list of calls
made from a situation with the processes `live`. -/
def liveProcesses (live : List Nat) (calls : List Call) : List Nat :=
  calls.foldl liveStep live

/-- Whether every launch in a list of calls comes after an endpoint name bound since
the launch before it (`fresh` tells whether a name has been bound since the last
launch). -/
def boundBeforeEachLaunch : Bool → List Call → Bool
  | _, [] => true
  | _, Call.listen _ _ true :: rest => boundBeforeEachLaunch true rest
  | fresh, Call.procStart _ _ _ :: rest => fresh && boundBeforeEachLaunch false rest
  | fresh, _ :: rest => boundBeforeEachLaunch fresh rest

/-! ## Teardown -/

theorem stopHelper_state (s : State) :
    (stopHelper s).1 = ⟨none, none, none, s.allocated⟩ := by
  rcases s with ⟨_ | p, _ | v, _ | k, a⟩ <;> rfl

theorem stopHelper_of_absent (s : State) (h : s.absent) : stopHelper s = (s, []) := by
  rcases s with ⟨p, v, k, a⟩
  obtain ⟨hp, hv, hk⟩ := h
  simp only at hp hv hk
  subst hp hv hk
  rfl

theorem isRunning_iff (s : State) (o : Observed) :
    isRunning s o = true ↔
      (∃ p, s.proc = some p ∧ o.procState p = ProcessState.Running) ∧
      (∃ k, s.sock = some k ∧ o.sockState k = LocalSocketState.ConnectedState) := by
  rcases s with ⟨_ | p, v, _ | k, a⟩ <;> simp [isRunning]

theorem isRunning_no_proc (s : State) (o : Observed) (h : s.proc = none) :
    isRunning s o = false := by
  simp [isRunning, h]

/-- C3: `stopHelper` is idempotent on the state, always leaves `proc`, `server` and
`sock` absent, and from a state where all three are absent it changes nothing and
makes no call at all (no flush, close, terminate or kill). -/
theorem stopHelper_idempotent (s : State) :
    (stopHelper (stopHelper s).1).1 = (stopHelper s).1 ∧
    (stopHelper s).1.absent ∧
    (s.absent → (stopHelper s).1 = s ∧ (stopHelper s).2 = [] ∧ stop s = (s, [])) := by
  refine ⟨?_, ?_, ?_⟩
  · rw [stopHelper_state, stopHelper_state]
  · rw [stopHelper_state]; exact ⟨rfl, rfl, rfl⟩
  · intro h
    rw [stop, stopHelper_of_absent s h]
    exact ⟨rfl, rfl, rfl⟩

/-- C3, at a concrete input: the state with nothing live. -/
theorem stopHelper_idempotent_witness :
    (⟨none, none, none, 3⟩ : State).absent ∧
    (stopHelper ⟨none, none, none, 3⟩).1 = ⟨none, none, none, 3⟩ ∧
    (stopHelper ⟨none, none, none, 3⟩).2 = [] ∧
    stop ⟨none, none, none, 3⟩ = (⟨none, none, none, 3⟩, []) :=
  ⟨by decide, (stopHelper_idempotent ⟨none, none, none, 3⟩).2.2 (by decide)⟩

theorem startHelper_running (env : Launch) (fuel : Nat) (s : State) (o : Observed)
    (h : isRunning s o = true) : startHelper env fuel s o = ⟨some true, s, []⟩ := by
  simp [startHelper, h]

/-- C9: `isRunning` is exactly the conjunction of "`proc` present and `Running`" and
"`sock` present and `ConnectedState`"; when it holds on entry `startHelper` returns
true with the state unchanged and without making any call (no teardown, no bind, no
launch). -/
theorem isRunning_conjunction_startHelper_frame (env : Launch) (fuel : Nat) (s : State)
    (o : Observed) :
    (isRunning s o = true ↔
      (∃ p, s.proc = some p ∧ o.procState p = ProcessState.Running) ∧
      (∃ k, s.sock = some k ∧ o.sockState k = LocalSocketState.ConnectedState)) ∧
    (isRunning s o = true →
      (startHelper env fuel s o).ret = some true ∧
      (startHelper env fuel s o).state = s ∧
      (startHelper env fuel s o).calls = []) := by
  refine ⟨isRunning_iff s o, fun h => ?_⟩
  rw [startHelper_running env fuel s o h]
  exact ⟨rfl, rfl, rfl⟩

/-- C9, at a concrete input: a live helper is reused as it is. -/
theorem isRunning_conjunction_startHelper_frame_witness :
    isRunning liveState allLive = true ∧
    (startHelper silentHelper 0 liveState allLive).ret = some true ∧
    (startHelper silentHelper 0 liveState allLive).state = liveState ∧
    (startHelper silentHelper 0 liveState allLive).calls = [] :=
  ⟨by decide,
    (isRunning_conjunction_startHelper_frame silentHelper 0 liveState allLive).2 (by decide)⟩

theorem isRunning_stopHelper (s : State) (o : Observed) :
    isRunning (stopHelper s).1 o = false :=
  isRunning_no_proc _ _ (by rw [stopHelper_state])

theorem readReply_not_running (s : State) (o : Observed) (w : Reply) (data : List Nat)
    (h : isRunning s o = false) :
    readReply s o w data =
      ⟨ReadStatus.Read_Closed, data, (stopHelper s).1, (stopHelper s).2⟩ := by
  simp [readReply, h]

theorem readReply_ready (s : State) (o : Observed) (w : Reply) (data : List Nat)
    (h : isRunning s o = true) (hw : w.waitForReadyRead = true) :
    readReply s o w data =
      ⟨if w.readAll.isEmpty then ReadStatus.Read_Error else ReadStatus.Read_Ok, w.readAll, s,
        [Call.waitForReadyRead s.sock constMaxWait true, Call.readAll s.sock w.readAll]⟩ := by
  simp [readReply, h, hw]

theorem readReply_timeout (s : State) (o : Observed) (w : Reply) (data : List Nat)
    (h : isRunning s o = true) (hw : w.waitForReadyRead = false) :
    readReply s o w data =
      ⟨ReadStatus.Read_Closed, data, (stopHelper s).1,
        Call.waitForReadyRead s.sock constMaxWait false :: (stopHelper s).2⟩ := by
  simp [readReply, h, hw, isRunning_stopHelper]

theorem readReply_status_ne_timeout (s : State) (o : Observed) (w : Reply) (data : List Nat) :
    (readReply s o w data).status ≠ ReadStatus.Read_Timeout := by
  cases h : isRunning s o
  · rw [readReply_not_running s o w data h]; simp
  · cases hw : w.waitForReadyRead
    · rw [readReply_timeout s o w data h hw]; simp
    · rw [readReply_ready s o w data h hw]
      cases w.readAll.isEmpty <;> simp

theorem readReply_closed_state (s : State) (o : Observed) (w : Reply) (data : List Nat)
    (h : (readReply s o w data).status = ReadStatus.Read_Closed) :
    (readReply s o w data).state = ⟨none, none, none, s.allocated⟩ := by
  cases hr : isRunning s o
  · rw [readReply_not_running s o w data hr]; exact stopHelper_state s
  · cases hw : w.waitForReadyRead
    · rw [readReply_timeout s o w data hr hw]; exact stopHelper_state s
    · rw [readReply_ready s o w data hr hw] at h
      cases he : w.readAll.isEmpty <;> simp [he] at h

theorem readReply_error_state (s : State) (o : Observed) (w : Reply) (data : List Nat)
    (h : (readReply s o w data).status = ReadStatus.Read_Error) :
    (readReply s o w data).state = s ∧ isRunning s o = true ∧
      (readReply s o w data).calls =
        [Call.waitForReadyRead s.sock constMaxWait true, Call.readAll s.sock []] := by
  cases hr : isRunning s o
  · rw [readReply_not_running s o w data hr] at h; simp at h
  · cases hw : w.waitForReadyRead
    · rw [readReply_timeout s o w data hr hw] at h; simp at h
    · rw [readReply_ready s o w data hr hw] at h ⊢
      cases he : w.readAll.isEmpty
      · simp [he] at h
      · have : w.readAll = [] := by simpa using he
        simp [this]

/-! ## The bind loop and the launch loop -/

theorem launches_append (a b : List Call) : launches (a ++ b) = launches a + launches b := by
  simp [launches]

theorem launches_stopHelper (s : State) : launches (stopHelper s).2 = 0 := by
  rcases s with ⟨_ | p, _ | v, _ | k, a⟩ <;> rfl

theorem bound_stopHelper (s : State) : (stopHelper s).2.filter Call.isBound = [] := by
  rcases s with ⟨_ | p, _ | v, _ | k, a⟩ <;> rfl

theorem bindLoop_spec (env : Launch) (srv : Nat) :
    ∀ fuel k0, (∃ k, k0 ≤ k ∧ k < k0 + fuel ∧ env.listen k = true) →
      ∃ k, k0 ≤ k ∧ env.listen k = true ∧ (∀ j, k0 ≤ j → j < k → env.listen j = false) ∧
        (bindLoop env srv fuel k0).1 = some (endpointName env.currentPid (env.random k)) ∧
        launches (bindLoop env srv fuel k0).2 = 0 ∧
        (bindLoop env srv fuel k0).2.filter Call.isBound =
          [Call.listen srv (endpointName env.currentPid (env.random k)) true] ∧
        (bindLoop env srv fuel k0).2.filter Call.isNewServer = [] := by
  intro fuel
  induction fuel with
  | zero =>
    rintro k0 ⟨k, h1, h2, _⟩
    omega
  | succ fuel ih =>
    rintro k0 ⟨k, h1, h2, h3⟩
    cases hl : env.listen k0
    · have hk : k0 ≠ k := by
        rintro rfl
        rw [hl] at h3
        exact Bool.false_ne_true h3
      obtain ⟨m, hm1, hm2, hm3, hm4, hm5, hm6, hm7⟩ :=
        ih (k0 + 1) ⟨k, by omega, by omega, h3⟩
      refine ⟨m, by omega, hm2, ?_, ?_, ?_, ?_, ?_⟩
      · intro j hj1 hj2
        rcases Nat.eq_or_lt_of_le hj1 with rfl | hlt
        · exact hl
        · exact hm3 j hlt hj2
      · simp [bindLoop, hl, hm4]
      · simpa [bindLoop, hl, launches, Call.isLaunch] using hm5
      · simpa [bindLoop, hl, Call.isBound] using hm6
      · simpa [bindLoop, hl, Call.isNewServer] using hm7
    · refine ⟨k0, le_refl _, hl, ?_, ?_, ?_, ?_, ?_⟩
      · intro j hj1 hj2
        omega
      · simp [bindLoop, hl]
      · simp [bindLoop, hl, launches, Call.isLaunch]
      · simp [bindLoop, hl, Call.isBound]
      · simp [bindLoop, hl, Call.isNewServer]

theorem bindLoop_exact (env : Launch) (srv : Nat) :
    ∀ fuel k0 k, k0 ≤ k → k < k0 + fuel → env.listen k = true →
      (∀ j, k0 ≤ j → j < k → env.listen j = false) →
      (bindLoop env srv fuel k0).2 =
        (List.range' k0 (k - k0)).flatMap (fun j =>
          [Call.removeServer (endpointName env.currentPid (env.random j)),
           Call.listen srv (endpointName env.currentPid (env.random j)) false]) ++
        [Call.removeServer (endpointName env.currentPid (env.random k)),
         Call.listen srv (endpointName env.currentPid (env.random k)) true] := by
  intro fuel
  induction fuel with
  | zero =>
    intro k0 k h1 h2 _ _
    omega
  | succ fuel ih =>
    intro k0 k h1 h2 h3 h4
    rcases Nat.eq_or_lt_of_le h1 with rfl | hlt
    · simp [bindLoop, h3]
    · have hl : env.listen k0 = false := h4 k0 (le_refl _) hlt
      have hrest := ih (k0 + 1) k hlt (by omega) h3 (fun j hj1 hj2 => h4 j (by omega) hj2)
      obtain ⟨d, hd⟩ : ∃ d, k - k0 = d + 1 := ⟨k - k0 - 1, by omega⟩
      have hd2 : k - (k0 + 1) = d := by omega
      rw [hd, List.range'_succ, List.flatMap_cons]
      rw [hd2] at hrest
      simp [bindLoop, hl, hrest]

theorem launchLoop_zero (env : Launch) (srv : Nat) (name : String) (i : Nat) (s : State) :
    launchLoop env srv name 0 i s = ⟨some false, (stopHelper s).1, (stopHelper s).2⟩ := rfl

theorem launchLoop_ok (env : Launch) (srv : Nat) (name : String) (n i : Nat) (s : State)
    (h : env.attemptOk i = true) :
    launchLoop env srv name (n + 1) i s =
      ⟨some true, ⟨some s.allocated, s.server, some (s.allocated + 1), s.allocated + 2⟩,
        [Call.newProcess s.allocated, launchCall env name s.allocated,
          Call.waitForStarted s.allocated constMaxWait true,
          Call.waitForNewConnection srv constMaxWait true,
          Call.nextPendingConnection srv (some (s.allocated + 1))]⟩ := by
  simp only [Launch.attemptOk, Bool.and_eq_true] at h
  obtain ⟨⟨hs, hc⟩, hp⟩ := h
  simp [launchLoop, acceptConnection, hs, hc, hp, launchCall]

theorem ofLaunchLoop_stopHelper (env : Launch) (name : String) (s : State) :
    ∀ x ∈ (stopHelper s).2, x.ofLaunchLoop env name := by
  rcases s with ⟨_ | p, _ | v, _ | k, a⟩ <;>
    simp [stopHelper, stopSock, stopServer, stopProc, Call.ofLaunchLoop, Call.isBound,
      Call.isNewServer, Call.usesSock, Call.isLaunch, Call.namesEndpoint]

theorem launchLoop_step (env : Launch) (srv : Nat) (name : String) (n i : Nat) (s : State)
    (hk : s.sock = none) (h : env.attemptOk i = false) :
    ∃ c, launches c = 1 ∧ (∀ x ∈ c, x.ofLaunchLoop env name) ∧
      launchLoop env srv name (n + 1) i s =
        ⟨(launchLoop env srv name n (i + 1)
            ⟨some s.allocated, s.server, none, s.allocated + 1⟩).ret,
          (launchLoop env srv name n (i + 1)
            ⟨some s.allocated, s.server, none, s.allocated + 1⟩).state,
          c ++ (launchLoop env srv name n (i + 1)
            ⟨some s.allocated, s.server, none, s.allocated + 1⟩).calls⟩ := by
  rcases s with ⟨p, v, k, a⟩
  simp only at hk
  subst hk
  cases hs : env.waitForStarted i
  · refine ⟨[Call.newProcess a, launchCall env name a,
      Call.waitForStarted a constMaxWait false], ?_, ?_, ?_⟩
    · simp [launches, launchCall, Call.isLaunch]
    · simp [launchCall, Call.ofLaunchLoop, Call.isBound, Call.isNewServer, Call.usesSock,
        Call.namesEndpoint,
        Call.isLaunch]
    · simp [launchLoop, hs, launchCall]
  · cases hc : env.waitForNewConnection i
    · refine ⟨[Call.newProcess a, launchCall env name a,
        Call.waitForStarted a constMaxWait true,
        Call.waitForNewConnection srv constMaxWait false], ?_, ?_, ?_⟩
      · simp [launches, launchCall, Call.isLaunch]
      · simp [launchCall, Call.ofLaunchLoop, Call.isBound, Call.isNewServer, Call.usesSock,
        Call.namesEndpoint,
          Call.isLaunch]
      · simp [launchLoop, acceptConnection, hs, hc, launchCall]
    · have hp : env.nextPendingConnection i = false := by
        simpa [Launch.attemptOk, hs, hc] using h
      refine ⟨[Call.newProcess a, launchCall env name a,
        Call.waitForStarted a constMaxWait true,
        Call.waitForNewConnection srv constMaxWait true,
        Call.nextPendingConnection srv none], ?_, ?_, ?_⟩
      · simp [launches, launchCall, Call.isLaunch]
      · simp [launchCall, Call.ofLaunchLoop, Call.isBound, Call.isNewServer, Call.usesSock,
        Call.namesEndpoint,
          Call.isLaunch]
      · simp [launchLoop, acceptConnection, hs, hc, hp, launchCall]

theorem launchLoop_calls (env : Launch) (srv : Nat) (name : String) :
    ∀ n i s, s.sock = none →
      launches (launchLoop env srv name n i s).calls ≤ n ∧
      ∀ x ∈ (launchLoop env srv name n i s).calls, x.ofLaunchLoop env name := by
  intro n
  induction n with
  | zero =>
    intro i s _
    rw [launchLoop_zero]
    exact ⟨by simp [launches_stopHelper], ofLaunchLoop_stopHelper env name s⟩
  | succ n ih =>
    intro i s hk
    cases h : env.attemptOk i
    · obtain ⟨c, hc1, hc2, hc3⟩ := launchLoop_step env srv name n i s hk h
      obtain ⟨ih1, ih2⟩ := ih (i + 1) ⟨some s.allocated, s.server, none, s.allocated + 1⟩ rfl
      rw [hc3]
      refine ⟨?_, ?_⟩
      · simp only [launches_append, hc1]
        omega
      · intro x hx
        rcases List.mem_append.mp hx with hx | hx
        · exact hc2 x hx
        · exact ih2 x hx
    · rw [launchLoop_ok env srv name n i s h]
      refine ⟨?_, ?_⟩
      · simp [launches, launchCall, Call.isLaunch]
      · simp [launchCall, Call.ofLaunchLoop, Call.isBound, Call.isNewServer, Call.usesSock,
        Call.namesEndpoint,
          Call.isLaunch]

theorem launchLoop_all_fail (env : Launch) (srv : Nat) (name : String) :
    ∀ n i s, s.sock = none → (∀ j, j < n + 1 → env.attemptOk (i + j) = false) →
      (launchLoop env srv name (n + 1) i s).ret = some false ∧
      (launchLoop env srv name (n + 1) i s).state = ⟨none, none, none, s.allocated + n + 1⟩ ∧
      ∃ pre, (launchLoop env srv name (n + 1) i s).calls =
          pre ++ (stopHelper ⟨some (s.allocated + n), s.server, none, s.allocated + n + 1⟩).2 ∧
        launches pre = n + 1 := by
  intro n
  induction n with
  | zero =>
    intro i s hk h
    obtain ⟨c, hc1, _, hc3⟩ := launchLoop_step env srv name 0 i s hk (h 0 (by omega))
    rw [hc3, launchLoop_zero]
    exact ⟨rfl, stopHelper_state _, c, rfl, hc1⟩
  | succ n ih =>
    intro i s hk h
    obtain ⟨c, hc1, _, hc3⟩ := launchLoop_step env srv name (n + 1) i s hk (h 0 (by omega))
    obtain ⟨ih1, ih2, pre, ih3, ih4⟩ :=
      ih (i + 1) ⟨some s.allocated, s.server, none, s.allocated + 1⟩ rfl
        (fun j hj => by
          have := h (j + 1) (by omega)
          rwa [show i + 1 + j = i + (j + 1) by omega])
    rw [hc3]
    refine ⟨ih1, ?_, c ++ pre, ?_, ?_⟩
    · rw [ih2]
      simp only [State.mk.injEq, true_and]
      omega
    · simp only [ih3, List.append_assoc]
      rw [show s.allocated + 1 + n = s.allocated + (n + 1) by omega,
        show s.allocated + (n + 1) + 1 = s.allocated + (n + 1) + 1 by rfl]
    · rw [launches_append, hc1, ih4]
      omega

theorem launchLoop_first_ok (env : Launch) (srv : Nat) (name : String) :
    ∀ j n i s, s.sock = none → j < n → env.attemptOk (i + j) = true →
      (∀ m, m < j → env.attemptOk (i + m) = false) →
      (launchLoop env srv name n i s).ret = some true ∧
      (launchLoop env srv name n i s).state =
        ⟨some (s.allocated + j), s.server, some (s.allocated + j + 1), s.allocated + j + 2⟩ ∧
      launches (launchLoop env srv name n i s).calls = j + 1 := by
  intro j
  induction j with
  | zero =>
    intro n i s _ hn hok _
    obtain ⟨n, rfl⟩ : ∃ m, n = m + 1 := ⟨n - 1, by omega⟩
    rw [launchLoop_ok env srv name n i s (by simpa using hok)]
    refine ⟨rfl, rfl, ?_⟩
    simp [launches, launchCall, Call.isLaunch]
  | succ j ih =>
    intro n i s hk hn hok hfail
    obtain ⟨n, rfl⟩ : ∃ m, n = m + 1 := ⟨n - 1, by omega⟩
    obtain ⟨c, hc1, _, hc3⟩ := launchLoop_step env srv name n i s hk (hfail 0 (by omega))
    obtain ⟨ih1, ih2, ih3⟩ :=
      ih n (i + 1) ⟨some s.allocated, s.server, none, s.allocated + 1⟩ rfl (by omega)
        (by rwa [show i + 1 + j = i + (j + 1) by omega])
        (fun m hm => by
          have := hfail (m + 1) (by omega)
          rwa [show i + 1 + m = i + (m + 1) by omega])
    rw [hc3]
    refine ⟨ih1, ?_, ?_⟩
    · rw [ih2]
      simp only [State.mk.injEq, Option.some.injEq, true_and]
      omega
    · rw [launches_append, hc1, ih3]
      omega

/-! ## `startHelper` on the launch branch -/

theorem bindLoop_calls (env : Launch) (srv : Nat) :
    ∀ fuel k, launches (bindLoop env srv fuel k).2 = 0 ∧
      (bindLoop env srv fuel k).2.filter Call.isNewServer = [] ∧
      (bindLoop env srv fuel k).2.filter Call.usesSock = [] := by
  intro fuel
  induction fuel with
  | zero => intro k; simp [bindLoop, launches]
  | succ fuel ih =>
    intro k
    obtain ⟨h1, h2, h3⟩ := ih (k + 1)
    cases hl : env.listen k
    · refine ⟨?_, ?_, ?_⟩
      · simpa [bindLoop, hl, launches, Call.isLaunch] using h1
      · simpa [bindLoop, hl, Call.isNewServer] using h2
      · simpa [bindLoop, hl, Call.usesSock] using h3
    · simp [bindLoop, hl, launches, Call.isLaunch, Call.isNewServer, Call.usesSock]

theorem stopHelper_calls (s : State) :
    (stopHelper s).2.filter Call.isNewServer = [] ∧
      (stopHelper s).2.filter Call.usesSock = [] := by
  rcases s with ⟨_ | p, _ | v, _ | k, a⟩ <;> exact ⟨rfl, rfl⟩

theorem startHelper_unbound (env : Launch) (fuel : Nat) (s : State) (o : Observed)
    (h : isRunning s o = false) (hb : (bindLoop env s.allocated fuel 0).1 = none) :
    startHelper env fuel s o =
      ⟨none, ⟨none, some s.allocated, none, s.allocated + 1⟩,
        (stopHelper s).2 ++ [Call.newServer s.allocated] ++
          (bindLoop env s.allocated fuel 0).2⟩ := by
  simp [startHelper, h, stopHelper_state, hb]

theorem startHelper_bound (env : Launch) (fuel : Nat) (s : State) (o : Observed)
    (name : String) (h : isRunning s o = false)
    (hb : (bindLoop env s.allocated fuel 0).1 = some name) :
    startHelper env fuel s o =
      ⟨(launchLoop env s.allocated name 5 0 ⟨none, some s.allocated, none, s.allocated + 1⟩).ret,
        (launchLoop env s.allocated name 5 0
          ⟨none, some s.allocated, none, s.allocated + 1⟩).state,
        (stopHelper s).2 ++ [Call.newServer s.allocated] ++
          (bindLoop env s.allocated fuel 0).2 ++
          (launchLoop env s.allocated name 5 0
            ⟨none, some s.allocated, none, s.allocated + 1⟩).calls⟩ := by
  simp [startHelper, h, stopHelper_state, hb]

theorem bindsWithin_spec (env : Launch) (srv fuel : Nat) (hb : env.bindsWithin fuel) :
    ∃ k, env.listen k = true ∧ (∀ j, j < k → env.listen j = false) ∧
      (bindLoop env srv fuel 0).1 = some (endpointName env.currentPid (env.random k)) ∧
      (bindLoop env srv fuel 0).2.filter Call.isBound =
        [Call.listen srv (endpointName env.currentPid (env.random k)) true] := by
  obtain ⟨k, hk1, hk2⟩ := hb
  obtain ⟨m, _, hm2, hm3, hm4, _, hm6, _⟩ :=
    bindLoop_spec env srv fuel 0 ⟨k, Nat.zero_le k, by omega, hk2⟩
  exact ⟨m, hm2, fun j hj => hm3 j (Nat.zero_le j) hj, hm4, hm6⟩

theorem launchLoop_true_sock (env : Launch) (srv : Nat) (name : String) :
    ∀ n i s, s.sock = none → (launchLoop env srv name n i s).ret = some true →
      (launchLoop env srv name n i s).state.sock.isSome = true := by
  intro n
  induction n with
  | zero =>
    intro i s _ h
    rw [launchLoop_zero] at h
    simp at h
  | succ n ih =>
    intro i s hk h
    cases ha : env.attemptOk i
    · obtain ⟨c, _, _, hc3⟩ := launchLoop_step env srv name n i s hk ha
      rw [hc3] at h ⊢
      exact ih (i + 1) _ rfl h
    · rw [launchLoop_ok env srv name n i s ha]
      rfl

theorem launchLoop_head (env : Launch) (srv : Nat) (name : String) (n i : Nat) (s : State)
    (hk : s.sock = none) :
    Call.newProcess s.allocated ∈ (launchLoop env srv name (n + 1) i s).calls ∧
      1 ≤ launches (launchLoop env srv name (n + 1) i s).calls := by
  cases ha : env.attemptOk i
  · obtain ⟨c, hc1, _, hc3⟩ := launchLoop_step env srv name n i s hk ha
    have hmem : Call.newProcess s.allocated ∈ c := by
      have h0 := hc3
      rcases s with ⟨p, v, k, a⟩
      simp only at hk
      subst hk
      have : (launchLoop env srv name (n + 1) i ⟨p, v, none, a⟩).calls.head? =
          some (Call.newProcess a) := by
        simp only [launchLoop]
        split
        · split <;> rfl
        · rfl
      rw [h0] at this
      cases c with
      | nil => simp [launches] at hc1
      | cons x c =>
        simp only [List.cons_append, List.head?_cons, Option.some.injEq] at this
        rw [this]
        exact List.mem_cons_self _ _
    rw [hc3]
    refine ⟨List.mem_append_left _ hmem, ?_⟩
    rw [launches_append, hc1]
    omega
  · rw [launchLoop_ok env srv name n i s ha]
    refine ⟨List.mem_cons_self _ _, ?_⟩
    simp [launches, launchCall, Call.isLaunch]

theorem startHelper_calls_usesSock (env : Launch) (fuel : Nat) (s : State) (o : Observed) :
    ∀ x ∈ (startHelper env fuel s o).calls, x.usesSock = false := by
  have hfilter : ∀ l : List Call, l.filter Call.usesSock = [] → ∀ x ∈ l, x.usesSock = false := by
    intro l hl x hx
    have := List.filter_eq_nil_iff.mp hl x hx
    simpa using this
  cases hr : isRunning s o
  · have hstop := hfilter _ (stopHelper_calls s).2
    have hbind := hfilter _ (bindLoop_calls env s.allocated fuel 0).2.2
    cases hb : (bindLoop env s.allocated fuel 0).1 with
    | none =>
      rw [startHelper_unbound env fuel s o hr hb]
      intro x hx
      simp only [List.mem_append, List.mem_singleton] at hx
      rcases hx with (hx | rfl) | hx
      · exact hstop x hx
      · rfl
      · exact hbind x hx
    | some name =>
      rw [startHelper_bound env fuel s o name hr hb]
      intro x hx
      simp only [List.mem_append, List.mem_singleton] at hx
      rcases hx with ((hx | rfl) | hx) | hx
      · exact hstop x hx
      · rfl
      · exact hbind x hx
      · exact ((launchLoop_calls env s.allocated name 5 0 _ rfl).2 x hx).2.2.1
  · rw [startHelper_running env fuel s o hr]
    simp

theorem startHelper_true_sock (env : Launch) (fuel : Nat) (s : State) (o : Observed)
    (h : (startHelper env fuel s o).ret = some true) :
    (startHelper env fuel s o).state.sock.isSome = true := by
  cases hr : isRunning s o
  · cases hb : (bindLoop env s.allocated fuel 0).1 with
    | none =>
      rw [startHelper_unbound env fuel s o hr hb] at h
      simp at h
    | some name =>
      rw [startHelper_bound env fuel s o name hr hb] at h ⊢
      exact launchLoop_true_sock env s.allocated name 5 0 _ rfl h
  · rw [startHelper_running env fuel s o hr]
    obtain ⟨_, k, hk, _⟩ := (isRunning_iff s o).mp hr
    simp [hk]

/-! ## The public operations -/

theorem throughNullSock_of_usesSock (c : Call) (h : c.usesSock = false) :
    c.throughNullSock = false := by
  cases c <;> simp [Call.usesSock] at h <;> rfl

theorem isWrite_of_usesSock (c : Call) (h : c.usesSock = false) : c.isWrite = false := by
  cases c <;> simp [Call.usesSock] at h <;> rfl

theorem readReply_calls (s : State) (o : Observed) (w : Reply) (data : List Nat) :
    ∀ c ∈ (readReply s o w data).calls, c.throughNullSock = false := by
  have hstop : ∀ c ∈ (stopHelper s).2, c.throughNullSock = false := by
    intro c hc
    apply throughNullSock_of_usesSock
    simpa using List.filter_eq_nil_iff.mp (stopHelper_calls s).2 c hc
  cases hr : isRunning s o
  · rw [readReply_not_running s o w data hr]
    exact hstop
  · obtain ⟨_, k, hk, _⟩ := (isRunning_iff s o).mp hr
    cases hw : w.waitForReadyRead
    · rw [readReply_timeout s o w data hr hw]
      intro c hc
      rcases List.mem_cons.mp hc with rfl | hc
      · rw [hk]; rfl
      · exact hstop c hc
    · rw [readReply_ready s o w data hr hw]
      intro c hc
      simp only [List.mem_cons, List.mem_singleton, List.not_mem_nil, or_false] at hc
      rcases hc with rfl | rfl <;> rw [hk] <;> rfl

theorem readOperation_eq (w : World) (s : State) (m : Message) :
    readOperation w s m =
      match (startHelper w.launch w.fuel s w.onEntry).ret with
      | none => ⟨none, (startHelper w.launch w.fuel s w.onEntry).state,
          (startHelper w.launch w.fuel s w.onEntry).calls⟩
      | some false => ⟨some Resp.defaultConstructed,
          (startHelper w.launch w.fuel s w.onEntry).state,
          (startHelper w.launch w.fuel s w.onEntry).calls⟩
      | some true =>
        ⟨some (if (readReply (startHelper w.launch w.fuel s w.onEntry).state w.beforeWait
              w.reply []).status = ReadStatus.Read_Ok
            then Resp.decoded (readReply (startHelper w.launch w.fuel s w.onEntry).state
              w.beforeWait w.reply []).data
            else Resp.defaultConstructed),
          (readReply (startHelper w.launch w.fuel s w.onEntry).state w.beforeWait
            w.reply []).state,
          (startHelper w.launch w.fuel s w.onEntry).calls ++
            [Call.sockWrite (startHelper w.launch w.fuel s w.onEntry).state.sock m] ++
            (readReply (startHelper w.launch w.fuel s w.onEntry).state w.beforeWait
              w.reply []).calls⟩ := rfl

theorem updateOperation_eq (w : World) (s : State) (m : Message) :
    updateOperation w s m =
      match (startHelper w.launch w.fuel s w.onEntry).ret with
      | none => ⟨none, (startHelper w.launch w.fuel s w.onEntry).state,
          (startHelper w.launch w.fuel s w.onEntry).calls⟩
      | some false => ⟨some Resp.Update_Failed,
          (startHelper w.launch w.fuel s w.onEntry).state,
          (startHelper w.launch w.fuel s w.onEntry).calls⟩
      | some true =>
        ⟨some (if (readReply (startHelper w.launch w.fuel s w.onEntry).state w.beforeWait
              w.reply []).status = ReadStatus.Read_Ok
            then Resp.decoded (readReply (startHelper w.launch w.fuel s w.onEntry).state
              w.beforeWait w.reply []).data
            else if (readReply (startHelper w.launch w.fuel s w.onEntry).state w.beforeWait
              w.reply []).status = ReadStatus.Read_Timeout
            then Resp.Update_Timedout else Resp.Update_BadFile),
          (readReply (startHelper w.launch w.fuel s w.onEntry).state w.beforeWait
            w.reply []).state,
          (startHelper w.launch w.fuel s w.onEntry).calls ++
            [Call.sockWrite (startHelper w.launch w.fuel s w.onEntry).state.sock m] ++
            (readReply (startHelper w.launch w.fuel s w.onEntry).state w.beforeWait
              w.reply []).calls⟩ := rfl

theorem exchange_calls (w : World) (s : State) (m : Message)
    (h : (startHelper w.launch w.fuel s w.onEntry).ret = some true) :
    ∀ c ∈ (startHelper w.launch w.fuel s w.onEntry).calls ++
          [Call.sockWrite (startHelper w.launch w.fuel s w.onEntry).state.sock m] ++
          (readReply (startHelper w.launch w.fuel s w.onEntry).state w.beforeWait
            w.reply []).calls, c.throughNullSock = false := by
  intro c hc
  simp only [List.mem_append, List.mem_singleton] at hc
  rcases hc with (hc | rfl) | hc
  · exact throughNullSock_of_usesSock c (startHelper_calls_usesSock _ _ _ _ c hc)
  · have := startHelper_true_sock _ _ _ _ h
    obtain ⟨k, hk⟩ := Option.isSome_iff_exists.mp this
    rw [hk]
    rfl
  · exact readReply_calls _ _ _ _ c hc

theorem readOperation_calls (w : World) (s : State) (m : Message) :
    ∀ c ∈ (readOperation w s m).calls, c.throughNullSock = false := by
  rw [readOperation_eq]
  have hstart : ∀ c ∈ (startHelper w.launch w.fuel s w.onEntry).calls,
      c.throughNullSock = false := fun c hc =>
    throughNullSock_of_usesSock c (startHelper_calls_usesSock _ _ _ _ c hc)
  cases hret : (startHelper w.launch w.fuel s w.onEntry).ret with
  | none => exact hstart
  | some b =>
    cases b
    · exact hstart
    · exact exchange_calls w s m hret

theorem updateOperation_calls (w : World) (s : State) (m : Message) :
    ∀ c ∈ (updateOperation w s m).calls, c.throughNullSock = false := by
  rw [updateOperation_eq]
  have hstart : ∀ c ∈ (startHelper w.launch w.fuel s w.onEntry).calls,
      c.throughNullSock = false := fun c hc =>
    throughNullSock_of_usesSock c (startHelper_calls_usesSock _ _ _ _ c hc)
  cases hret : (startHelper w.launch w.fuel s w.onEntry).ret with
  | none => exact hstart
  | some b =>
    cases b
    · exact hstart
    · exact exchange_calls w s m hret

theorem operation_run_cases (op : Operation) (w : World) (s : State) :
    (∃ m, op.run w s = readOperation w s m ∧ op.initial = Resp.defaultConstructed) ∨
      (∃ m, op.run w s = updateOperation w s m ∧ op.initial = Resp.Update_Failed) := by
  cases op
  case updateArtistAndTitle f g => exact Or.inr ⟨_, rfl, rfl⟩
  case update f a b v c => exact Or.inr ⟨_, rfl, rfl⟩
  case updateReplaygain f g => exact Or.inr ⟨_, rfl, rfl⟩
  case embedImage f g => exact Or.inr ⟨_, rfl, rfl⟩
  all_goals exact Or.inl ⟨_, rfl, rfl⟩

/-- C10: the connection is never used while absent. From every starting state, when
`startHelper` returns true `sock` is present on return; `readReply` makes none of its
calls through a null `sock`; and no public operation makes a call (the `sock->write`
included) through a null `sock`. -/
theorem sock_present_when_used (op : Operation) (w : World) (env : Launch) (fuel : Nat)
    (s : State) (o : Observed) (r : Reply) (data : List Nat) :
    ((startHelper env fuel s o).ret = some true →
      (startHelper env fuel s o).state.sock.isSome = true) ∧
    (∀ c ∈ (readReply s o r data).calls, c.throughNullSock = false) ∧
    (∀ c ∈ (op.run w s).calls, c.throughNullSock = false) := by
  refine ⟨startHelper_true_sock env fuel s o, readReply_calls s o r data, ?_⟩
  rcases operation_run_cases op w s with ⟨m, hm, _⟩ | ⟨m, hm, _⟩
  · rw [hm]; exact readOperation_calls w s m
  · rw [hm]; exact updateOperation_calls w s m

/-- C10, at a concrete input: a helper that connects at the first attempt, started
from a state in which only `server` is present. -/
theorem sock_present_when_used_witness :
    (startHelper promptHelper 1 ⟨none, some 0, none, 1⟩ allLive).ret = some true ∧
    (startHelper promptHelper 1 ⟨none, some 0, none, 1⟩ allLive).state.sock.isSome = true :=
  ⟨by decide,
    (sock_present_when_used (Operation.read "a.mp3") stalledWorld promptHelper 1
      ⟨none, some 0, none, 1⟩ allLive stalled []).1 (by decide)⟩

/-! ## The claims about launching -/

theorem startHelper_all_fail (env : Launch) (fuel : Nat) (s : State) (o : Observed)
    (hr : isRunning s o = false) (hb : env.bindsWithin fuel)
    (hf : ∀ i, i < 5 → env.attemptOk i = false) :
    (startHelper env fuel s o).ret = some false ∧
    (startHelper env fuel s o).state = ⟨none, none, none, s.allocated + 6⟩ ∧
    ∃ pre, (startHelper env fuel s o).calls =
        pre ++ (stopHelper ⟨some (s.allocated + 5), some s.allocated, none,
          s.allocated + 6⟩).2 ∧
      launches pre = 5 := by
  obtain ⟨k, _, _, hname, _⟩ := bindsWithin_spec env s.allocated fuel hb
  rw [startHelper_bound env fuel s o _ hr hname]
  obtain ⟨h1, h2, pre, h3, h4⟩ :=
    launchLoop_all_fail env s.allocated (endpointName env.currentPid (env.random k)) 4 0
      ⟨none, some s.allocated, none, s.allocated + 1⟩ rfl
      (fun j hj => by simpa using hf j hj)
  refine ⟨h1, ?_, (stopHelper s).2 ++ [Call.newServer s.allocated] ++
      (bindLoop env s.allocated fuel 0).2 ++ pre, ?_, ?_⟩
  · rw [h2]
  · simp only [h3, List.append_assoc]
  · simp only [launches_append, launches_stopHelper, (bindLoop_calls env s.allocated fuel 0).1,
      h4]
    simp [launches, Call.isLaunch]

/-- C6: when `isRunning` is false on entry, one `startHelper` call launches the helper
at most 5 times; once the bind loop has ended, it returns true at the first attempt
whose `waitForStarted` succeeds and which accepts a non-null connection, having
launched exactly that many processes, and when all 5 attempts fail it has launched
exactly 5 processes, ends with the calls of `stopHelper` and returns false. -/
theorem startHelper_launch_attempts (env : Launch) (fuel : Nat) (s : State) (o : Observed)
    (hr : isRunning s o = false) :
    launches (startHelper env fuel s o).calls ≤ 5 ∧
    (env.bindsWithin fuel →
      (∀ j, j < 5 → env.attemptOk j = true → (∀ i, i < j → env.attemptOk i = false) →
        (startHelper env fuel s o).ret = some true ∧
        launches (startHelper env fuel s o).calls = j + 1) ∧
      ((∀ i, i < 5 → env.attemptOk i = false) →
        (startHelper env fuel s o).ret = some false ∧
        launches (startHelper env fuel s o).calls = 5 ∧
        (startHelper env fuel s o).state.absent ∧
        ∃ pre, (startHelper env fuel s o).calls =
            pre ++ (stopHelper ⟨some (s.allocated + 5), some s.allocated, none,
              s.allocated + 6⟩).2 ∧
          launches pre = 5)) := by
  have hpre : launches ((stopHelper s).2 ++ [Call.newServer s.allocated] ++
      (bindLoop env s.allocated fuel 0).2) = 0 := by
    simp only [launches_append, launches_stopHelper, (bindLoop_calls env s.allocated fuel 0).1]
    simp [launches, Call.isLaunch]
  refine ⟨?_, fun hb => ⟨?_, ?_⟩⟩
  · cases hbind : (bindLoop env s.allocated fuel 0).1 with
    | none =>
      rw [startHelper_unbound env fuel s o hr hbind, hpre]
      omega
    | some name =>
      rw [startHelper_bound env fuel s o name hr hbind]
      have := (launchLoop_calls env s.allocated name 5 0
        ⟨none, some s.allocated, none, s.allocated + 1⟩ rfl).1
      simp only [launches_append] at hpre ⊢
      omega
  · intro j hj hok hfail
    obtain ⟨k, _, _, hname, _⟩ := bindsWithin_spec env s.allocated fuel hb
    rw [startHelper_bound env fuel s o _ hr hname]
    obtain ⟨h1, _, h3⟩ :=
      launchLoop_first_ok env s.allocated (endpointName env.currentPid (env.random k)) j 5 0
        ⟨none, some s.allocated, none, s.allocated + 1⟩ rfl hj (by simpa using hok)
        (fun m hm => by simpa using hfail m hm)
    refine ⟨h1, ?_⟩
    simp only [launches_append] at hpre ⊢
    omega
  · intro hf
    obtain ⟨h1, h2, pre, h3, h4⟩ := startHelper_all_fail env fuel s o hr hb hf
    refine ⟨h1, ?_, ?_, pre, h3, h4⟩
    · rw [h3, launches_append, h4, launches_stopHelper]
    · rw [h2]; exact ⟨rfl, rfl, rfl⟩

/-- C6, at a concrete input: a helper that never connects back, from the initial
state. -/
theorem startHelper_launch_attempts_witness :
    isRunning initialState allLive = false ∧ silentHelper.bindsWithin 1 ∧
    (∀ i, i < 5 → silentHelper.attemptOk i = false) ∧
    (startHelper silentHelper 1 initialState allLive).ret = some false ∧
    launches (startHelper silentHelper 1 initialState allLive).calls = 5 :=
  ⟨by decide, ⟨0, by decide, by decide⟩, fun _ _ => rfl,
    (((startHelper_launch_attempts silentHelper 1 initialState allLive (by decide)).2
      ⟨0, by decide, by decide⟩).2 (fun _ _ => rfl)).1,
    (((startHelper_launch_attempts silentHelper 1 initialState allLive (by decide)).2
      ⟨0, by decide, by decide⟩).2 (fun _ _ => rfl)).2.1⟩

/-- C2: for every public operation, when `startHelper` goes through its 5 launch
attempts and none yields both a started process and an accepted connection, nothing
is written to any connection, the operation returns the value `resp` was initialised
with (default-constructed for the read operations, `Tags::Update_Failed` for the four
updating ones), and `proc`, `server` and `sock` are all absent on return. -/
theorem operation_launch_failure (op : Operation) (w : World) (s : State)
    (hr : isRunning s w.onEntry = false) (hb : w.launch.bindsWithin w.fuel)
    (hf : ∀ i, i < 5 → w.launch.attemptOk i = false) :
    (op.run w s).resp = some op.initial ∧
    (∀ c ∈ (op.run w s).calls, c.isWrite = false) ∧
    (op.run w s).state.absent ∧
    launches (op.run w s).calls = 5 := by
  obtain ⟨h1, h2, pre, h3, h4⟩ := startHelper_all_fail w.launch w.fuel s w.onEntry hr hb hf
  have hw : ∀ c ∈ (startHelper w.launch w.fuel s w.onEntry).calls, c.isWrite = false :=
    fun c hc => isWrite_of_usesSock c (startHelper_calls_usesSock _ _ _ _ c hc)
  have hl : launches (startHelper w.launch w.fuel s w.onEntry).calls = 5 := by
    rw [h3, launches_append, h4, launches_stopHelper]
  have ha : (startHelper w.launch w.fuel s w.onEntry).state.absent := by
    rw [h2]; exact ⟨rfl, rfl, rfl⟩
  rcases operation_run_cases op w s with ⟨m, hm, hi⟩ | ⟨m, hm, hi⟩
  · rw [hm, hi, readOperation_eq, h1]
    exact ⟨rfl, hw, ha, hl⟩
  · rw [hm, hi, updateOperation_eq, h1]
    exact ⟨rfl, hw, ha, hl⟩

/-- C2, at a concrete input: `updateReplaygain` with a helper that starts and never
connects back, 5 times. -/
theorem operation_launch_failure_witness :
    isRunning initialState silentWorld.onEntry = false ∧
    silentWorld.launch.bindsWithin silentWorld.fuel ∧
    (∀ i, i < 5 → silentWorld.launch.attemptOk i = false) ∧
    (updateReplaygain silentWorld initialState "a.mp3" ⟨[]⟩).resp =
      some Resp.Update_Failed ∧
    (updateReplaygain silentWorld initialState "a.mp3" ⟨[]⟩).state.absent :=
  ⟨by decide, ⟨0, by decide, by decide⟩, fun _ _ => rfl,
    (operation_launch_failure (Operation.updateReplaygain "a.mp3" ⟨[]⟩) silentWorld
      initialState (by decide) ⟨0, by decide, by decide⟩ (fun _ _ => rfl)).1,
    (operation_launch_failure (Operation.updateReplaygain "a.mp3" ⟨[]⟩) silentWorld
      initialState (by decide) ⟨0, by decide, by decide⟩ (fun _ _ => rfl)).2.2.1⟩

/-! ## The claims about the reply wait -/

/-- C4: whenever `readReply` returns `Read_Timeout` or `Read_Closed`, `proc`, `server`
and `sock` are absent in the state it leaves, `isRunning` is false there whatever the
objects report, and the `startHelper` call that follows does not return on the old
connection: its first call creates a new server and, once the bind loop has ended, it
creates and launches a new process. -/
theorem readReply_teardown_forces_relaunch (s : State) (o : Observed) (w : Reply)
    (data : List Nat)
    (h : (readReply s o w data).status = ReadStatus.Read_Timeout ∨
      (readReply s o w data).status = ReadStatus.Read_Closed) :
    (readReply s o w data).state.absent ∧
    (∀ o2, isRunning (readReply s o w data).state o2 = false) ∧
    (∀ env fuel o2,
      (startHelper env fuel (readReply s o w data).state o2).calls.head? =
        some (Call.newServer (readReply s o w data).state.allocated) ∧
      (env.bindsWithin fuel →
        Call.newProcess ((readReply s o w data).state.allocated + 1) ∈
          (startHelper env fuel (readReply s o w data).state o2).calls ∧
        1 ≤ launches (startHelper env fuel (readReply s o w data).state o2).calls)) := by
  have hc : (readReply s o w data).status = ReadStatus.Read_Closed := by
    rcases h with h | h
    · exact absurd h (readReply_status_ne_timeout s o w data)
    · exact h
  rw [readReply_closed_state s o w data hc]
  have hrun : ∀ o2, isRunning ⟨none, none, none, s.allocated⟩ o2 = false := fun _ => rfl
  refine ⟨⟨rfl, rfl, rfl⟩, hrun, fun env fuel o2 => ⟨?_, fun hb => ?_⟩⟩
  · cases hbind : (bindLoop env s.allocated fuel 0).1 with
    | none =>
      rw [startHelper_unbound env fuel _ o2 (hrun o2) hbind]
      rfl
    | some name =>
      rw [startHelper_bound env fuel _ o2 name (hrun o2) hbind]
      rfl
  · obtain ⟨k, _, _, hname, _⟩ := bindsWithin_spec env s.allocated fuel hb
    rw [startHelper_bound env fuel _ o2 _ (hrun o2) hname]
    obtain ⟨h1, h2⟩ :=
      launchLoop_head env s.allocated (endpointName env.currentPid (env.random k)) 4 0
        ⟨none, some s.allocated, none, s.allocated + 1⟩ rfl
    refine ⟨List.mem_append_right _ h1, ?_⟩
    rw [launches_append]
    exact Nat.le_trans h2 (Nat.le_add_left _ _)

/-- C4, at a concrete input: the wait times out on a live helper, and the next
`startHelper` launches anew. -/
theorem readReply_teardown_forces_relaunch_witness :
    (readReply liveState allLive stalled []).status = ReadStatus.Read_Closed ∧
    (readReply liveState allLive stalled []).state.absent ∧
    (startHelper promptHelper 1 (readReply liveState allLive stalled []).state
      allLive).calls.head? =
        some (Call.newServer (readReply liveState allLive stalled []).state.allocated) :=
  ⟨by decide,
    (readReply_teardown_forces_relaunch liveState allLive stalled []
      (Or.inr (by decide))).1,
    ((readReply_teardown_forces_relaunch liveState allLive stalled []
      (Or.inr (by decide))).2.2 promptHelper 1 allLive).1⟩

/-- C5, as stated, fails: with data signalled ready and an empty `readAll`,
`readReply` returns `Read_Error` and leaves `proc`, `server` and `sock` in place. -/
theorem readReply_error_keeps_helper :
    (readReply liveState allLive emptyRead []).status = ReadStatus.Read_Error ∧
    (readReply liveState allLive emptyRead []).state = liveState ∧
    ¬ (readReply liveState allLive emptyRead []).state.absent := by
  decide

/-- C5, amended: a `Read_Timeout` or `Read_Closed` outcome of `readReply` leaves
`proc`, `server` and `sock` absent; a `Read_Error` outcome leaves the state as it was,
the only calls made being the wait and the empty `readAll`. -/
theorem readReply_teardown_unless_data (s : State) (o : Observed) (w : Reply)
    (data : List Nat) :
    (((readReply s o w data).status = ReadStatus.Read_Timeout ∨
        (readReply s o w data).status = ReadStatus.Read_Closed) →
      (readReply s o w data).state.absent) ∧
    ((readReply s o w data).status = ReadStatus.Read_Error →
      (readReply s o w data).state = s ∧
      (readReply s o w data).calls =
        [Call.waitForReadyRead s.sock constMaxWait true, Call.readAll s.sock []]) := by
  refine ⟨fun h => ?_, fun h => ?_⟩
  · rcases h with h | h
    · exact absurd h (readReply_status_ne_timeout s o w data)
    · rw [readReply_closed_state s o w data h]
      exact ⟨rfl, rfl, rfl⟩
  · obtain ⟨h1, _, h3⟩ := readReply_error_state s o w data h
    exact ⟨h1, h3⟩

/-- C5 amended, at a concrete input: `isRunning` false on entry gives `Read_Closed`
and a torn-down state. -/
theorem readReply_teardown_unless_data_witness :
    (readReply ⟨some 1, some 0, none, 2⟩ allLive emptyRead []).status =
      ReadStatus.Read_Closed ∧
    (readReply ⟨some 1, some 0, none, 2⟩ allLive emptyRead []).state.absent :=
  ⟨by decide,
    (readReply_teardown_unless_data ⟨some 1, some 0, none, 2⟩ allLive emptyRead []).1
      (Or.inr (by decide))⟩

/-- No updating operation can return `Tags::Update_Timedout`: `readReply` calls
`stopHelper` before it tests `isRunning` for the last time, so it never returns
`Read_Timeout`. -/
theorem updateOperation_never_timedout (w : World) (s : State) (m : Message) :
    (updateOperation w s m).resp ≠ some Resp.Update_Timedout := by
  rw [updateOperation_eq]
  cases hret : (startHelper w.launch w.fuel s w.onEntry).ret with
  | none => simp
  | some b =>
    cases b
    · simp
    · have hne := readReply_status_ne_timeout (startHelper w.launch w.fuel s w.onEntry).state
        w.beforeWait w.reply []
      simp only [hne, if_false]
      split <;> simp

/-- C1, on the code: the helper connects, the request is written, the wait times out
with the process still `Running` and the socket still `ConnectedState`; `readReply`
returns `Read_Closed` and `update` returns `Tags::Update_BadFile`, not
`Tags::Update_Timedout`; `proc`, `server` and `sock` are absent afterwards. -/
theorem update_reply_timeout_is_badFile :
    (startHelper promptHelper 1 initialState allLive).ret = some true ∧
    (startHelper promptHelper 1 initialState allLive).state = liveState ∧
    isRunning liveState stalled.afterWait = true ∧
    stalled.waitForReadyRead = false ∧
    (readReply liveState allLive stalled []).status = ReadStatus.Read_Closed ∧
    (update stalledWorld initialState "a.mp3" ⟨[]⟩ ⟨[]⟩ 4 true).resp =
      some Resp.Update_BadFile ∧
    (update stalledWorld initialState "a.mp3" ⟨[]⟩ ⟨[]⟩ 4 true).state.absent := by
  decide

/-! ## The claims about processes and endpoints -/

/-- C7, on the code: the first launch starts without connecting back, the second
connects; `startHelper` returns true tracking process `2`, and process `1` has been
launched and neither terminated nor killed, so two helper processes are live. -/
theorem startHelper_retry_leaves_two_processes :
    (startHelper slowHelper 1 initialState allLive).ret = some true ∧
    (startHelper slowHelper 1 initialState allLive).state = ⟨some 2, some 0, some 3, 4⟩ ∧
    liveProcesses [] (startHelper slowHelper 1 initialState allLive).calls = [1, 2] ∧
    Call.procTerminate 1 ∉ (startHelper slowHelper 1 initialState allLive).calls ∧
    Call.procKill 1 ∉ (startHelper slowHelper 1 initialState allLive).calls := by
  decide

/-- C8, as stated, fails: over two launch attempts of one `startHelper` call a single
name is bound, before the first launch, and both launches pass that same name. -/
theorem startHelper_retry_reuses_endpoint :
    launches (startHelper slowHelper 1 initialState allLive).calls = 2 ∧
    boundBeforeEachLaunch false (startHelper slowHelper 1 initialState allLive).calls = false ∧
    (startHelper slowHelper 1 initialState allLive).calls.filter Call.isBound =
      [Call.listen 0 (endpointName 4242 100) true] ∧
    (startHelper slowHelper 1 initialState allLive).calls.filter Call.isLaunch =
      [launchCall slowHelper (endpointName 4242 100) 1,
       launchCall slowHelper (endpointName 4242 100) 2] := by
  decide

/-- C8, amended: on the launch branch, once the bind loop has ended, one `startHelper`
call creates one listen endpoint and binds one name,
`"cantata-tags-" + pid + "-" + random` for the first random value whose `listen`
succeeds, before any launch; from the first launch on no name is generated or bound
again (no `removeServer`, no `listen` of any outcome, no new server), and every one of
the attempts passes that same endpoint to the helper. -/
theorem startHelper_single_endpoint (env : Launch) (fuel : Nat) (s : State) (o : Observed)
    (hr : isRunning s o = false) (hb : env.bindsWithin fuel) :
    ∃ k, env.listen k = true ∧ (∀ j, j < k → env.listen j = false) ∧
      ∃ pre post, (startHelper env fuel s o).calls = pre ++ post ∧
        pre = (stopHelper s).2 ++ [Call.newServer s.allocated] ++
          (List.range k).flatMap (fun j =>
            [Call.removeServer (endpointName env.currentPid (env.random j)),
             Call.listen s.allocated (endpointName env.currentPid (env.random j)) false]) ++
          [Call.removeServer (endpointName env.currentPid (env.random k)),
           Call.listen s.allocated (endpointName env.currentPid (env.random k)) true] ∧
        pre.filter Call.isNewServer = [Call.newServer s.allocated] ∧
        pre.filter Call.isBound =
          [Call.listen s.allocated (endpointName env.currentPid (env.random k)) true] ∧
        launches pre = 0 ∧
        1 ≤ launches post ∧ launches post ≤ 5 ∧
        (∀ x ∈ post, x.namesEndpoint = false ∧ x.isNewServer = false ∧ x.isBound = false) ∧
        (∀ x ∈ post, x.isLaunch = true →
          ∃ p, x = launchCall env (endpointName env.currentPid (env.random k)) p) := by
  obtain ⟨k, hk1, hk2, hname, hbound⟩ := bindsWithin_spec env s.allocated fuel hb
  have hloop := launchLoop_calls env s.allocated (endpointName env.currentPid (env.random k))
    5 0 ⟨none, some s.allocated, none, s.allocated + 1⟩ rfl
  refine ⟨k, hk1, hk2, (stopHelper s).2 ++ [Call.newServer s.allocated] ++
      (bindLoop env s.allocated fuel 0).2, _,
    by rw [startHelper_bound env fuel s o _ hr hname], ?_, ?_, ?_, ?_, ?_, ?_, ?_, ?_⟩
  · obtain ⟨k2, hk3, hk4⟩ := hb
    have hlt : k < fuel := by
      by_contra hge
      rw [hk2 k2 (by omega)] at hk4
      exact Bool.false_ne_true hk4
    rw [bindLoop_exact env s.allocated fuel 0 k (Nat.zero_le k) (by omega) hk1
      (fun j _ hj => hk2 j hj), Nat.sub_zero, ← List.range_eq_range']
    simp only [List.append_assoc]
  · simp [List.filter_append, (stopHelper_calls s).1,
      (bindLoop_calls env s.allocated fuel 0).2.1, Call.isNewServer]
  · simp [List.filter_append, bound_stopHelper, hbound, Call.isBound]
  · simp only [launches_append, launches_stopHelper, (bindLoop_calls env s.allocated fuel 0).1]
    simp [launches, Call.isLaunch]
  · exact (launchLoop_head env s.allocated _ 4 0 _ rfl).2
  · exact hloop.1
  · intro x hx
    exact ⟨(hloop.2 x hx).2.2.2.2, (hloop.2 x hx).2.1, (hloop.2 x hx).1⟩
  · intro x hx
    exact (hloop.2 x hx).2.2.2.1

/-- C8 amended, at a concrete input: the helper whose first launch does not connect. -/
theorem startHelper_single_endpoint_witness :
    isRunning initialState allLive = false ∧ slowHelper.bindsWithin 1 ∧
    ∃ k, slowHelper.listen k = true ∧ (∀ j, j < k → slowHelper.listen j = false) ∧
      ∃ pre post, (startHelper slowHelper 1 initialState allLive).calls = pre ++ post ∧
        pre = (stopHelper initialState).2 ++ [Call.newServer initialState.allocated] ++
          (List.range k).flatMap (fun j =>
            [Call.removeServer (endpointName slowHelper.currentPid (slowHelper.random j)),
             Call.listen initialState.allocated
               (endpointName slowHelper.currentPid (slowHelper.random j)) false]) ++
          [Call.removeServer (endpointName slowHelper.currentPid (slowHelper.random k)),
           Call.listen initialState.allocated
             (endpointName slowHelper.currentPid (slowHelper.random k)) true] ∧
        pre.filter Call.isNewServer = [Call.newServer initialState.allocated] ∧
        pre.filter Call.isBound =
          [Call.listen initialState.allocated
            (endpointName slowHelper.currentPid (slowHelper.random k)) true] ∧
        launches pre = 0 ∧
        1 ≤ launches post ∧ launches post ≤ 5 ∧
        (∀ x ∈ post, x.namesEndpoint = false ∧ x.isNewServer = false ∧ x.isBound = false) ∧
        (∀ x ∈ post, x.isLaunch = true →
          ∃ p, x = launchCall slowHelper
            (endpointName slowHelper.currentPid (slowHelper.random k)) p) :=
  ⟨by decide, ⟨0, by decide, by decide⟩,
    startHelper_single_endpoint slowHelper 1 initialState allLive (by decide)
      ⟨0, by decide, by decide⟩⟩

end TagClient
